import Mathlib

/-!
A shallow embedding of the `express` module of `src/lib.rs` (a minimal
HTTP/1.1 parsing and routing engine), together with theorems settling the
specification claims about it.

Modelling conventions:
* Rust `String`/`&str` values are `Str := List Char`, and each string
  operation the source uses (`split`, `split_once`, `trim`, ...) is defined
  by structural recursion below, mirroring the Rust semantics.
* Byte buffers (`Vec<u8>`) are `List Nat` (each entry < 256 in practice;
  no claim depends on the bound).
* `HashMap` values are association lists with insert-replace semantics;
  only `get` / `insert` / `entry().and_modify().or_insert()` are used by the
  source and their observable (lookup) behaviour is preserved.
* Handlers (boxed closures in the source) are identified by `Nat` labels;
  the routing claims are about which handler is invoked, not its body.
* A Rust panic is modelled as `Option.none` of the function's result.
* A `TcpStream` read side is the list of bytes the peer will still supply.
-/

namespace ExpressRs

/-- Rust strings are modelled as lists of characters so that every string
operation used by the program can be defined by structural recursion. -/
abbrev Str := List Char

/-- Coercion from a Lean string literal to the model's string type. -/
def str (s : String) : Str := s.data

/-- Decimal rendering of a natural number, as in Rust's Display for integers. -/
def natToStr (n : Nat) : Str := Nat.toDigits 10 n

/-- Rendering of a signed integer (Rust `i32` Display). -/
def intToStr (n : Int) : Str :=
  if n < 0 then '-' :: natToStr (-n).toNat else natToStr n.toNat

/-- Rust `str::split(sep)` for a one-character separator: splits at every
occurrence, keeping empty pieces. -/
def splitOnChar (sep : Char) : Str → List Str
  | [] => [[]]
  | c :: rest =>
    let ps := splitOnChar sep rest
    if c = sep then [] :: ps
    else match ps with
      | [] => [[c]]
      | p :: ps' => (c :: p) :: ps'

/-- Rust `str::split_once(sep)` for a one-character separator: splits at the
first occurrence, `none` when the separator does not occur. -/
def splitOnceChar (sep : Char) : Str → Option (Str × Str)
  | [] => none
  | c :: rest =>
    if c = sep then some ([], rest)
    else match splitOnceChar sep rest with
      | some (a, b) => some (c :: a, b)
      | none => none

/-- ASCII whitespace test (Rust `char::is_whitespace` restricted to the ASCII
characters; the source only ever trims header text, for which this agrees). -/
def isWs (c : Char) : Bool := c = ' ' || c = '\t' || c = '\n' || c = '\r'

/-- Rust `str::trim`: drop whitespace from both ends. -/
def trimChars (s : Str) : Str :=
  ((s.dropWhile isWs).reverse.dropWhile isWs).reverse

/-- Rust `str::starts_with` for a one-character pattern. -/
def startsWithChar (c : Char) : Str → Bool
  | [] => false
  | a :: _ => a = c

/-- Rust `str::contains` for a one-character pattern. -/
def containsChar (c : Char) (s : Str) : Bool := s.contains c

/-- The non-empty pieces of a split, as in
`route.split('/').filter(|s| !s.is_empty())`. -/
def splitNonEmpty (sep : Char) (s : Str) : List Str :=
  (splitOnChar sep s).filter (fun p => !p.isEmpty)

/-- `HashMap::get`, on the association-list model. -/
def lookupHM {α β : Type} [DecidableEq α] : List (α × β) → α → Option β
  | [], _ => none
  | (k, v) :: rest, a => if k = a then some v else lookupHM rest a

/-- `HashMap::insert`, on the association-list model: replace the binding of
the key when present, append it otherwise. -/
def insertHM {α β : Type} [DecidableEq α] : List (α × β) → α → β → List (α × β)
  | [], k, v => [(k, v)]
  | (k', w) :: rest, k, v =>
    if k' = k then (k, v) :: rest else (k', w) :: insertHM rest k v

/-- Parse a run of decimal digits (empty input or a non-digit is a failure). -/
def parseDigits : Str → Nat → Option Nat
  | [], acc => some acc
  | c :: cs, acc =>
    if '0' ≤ c ∧ c ≤ '9' then parseDigits cs (acc * 10 + (c.toNat - 48))
    else none

/-- Rust `usize::from_str` (as used by `content_length.parse()`): an optional
leading plus sign followed by at least one decimal digit. Overflow at the
machine width is not modelled; no claim involves lengths near `2^64`. -/
def parse_usize (s : Str) : Option Nat :=
  match s with
  | [] => none
  | '+' :: rest => if rest = [] then none else parseDigits rest 0
  | _ => parseDigits s 0

/-- `String::from_utf8_lossy`, modelled bytewise: an ASCII byte decodes to
itself and any other byte to U+FFFD. Multi-byte UTF-8 sequences are not
reconstructed (no claim involves non-ASCII body bytes, and every theorem
that mentions this decode is parametric in it). -/
def from_utf8_lossy (bytes : List Nat) : Str :=
  bytes.map (fun b => if b < 128 then Char.ofNat b else '�')

/-- The HTTP methods of the source's closed `Method` enum. -/
inductive Method where
  | GET
  | POST
  | PUT
  | PATCH
  | DELETE
deriving DecidableEq

/-- The source's `Body` enum: the closed set of decoded body representations. -/
inductive Body where
  | JSON (text : Str)
  | FormData (map : List (Str × Str))
  | Text (text : Str)
  | Binary (bytes : List Nat)
deriving DecidableEq

/-- `read_body` from the source:

    fn read_body(stream, content_length, left_over) -> Vec<u8> {
        let mut buf = left_over;
        let mut rest = vec![0u8; content_length - buf.len()];
        let _ = stream.read_exact(&mut rest);
        buf.extend_from_slice(&rest);
        return buf;
    }

`content_length - buf.len()` is unsigned subtraction, which panics
(arithmetic underflow) when the leftover is longer than the declared length;
the panic is modelled as `none`.  `read_exact`'s result is discarded by
`let _ =`: when the stream ends early the buffer keeps the bytes that were
read followed by the zeroes it was initialised with, and the function still
returns a body. -/
def read_body (stream : List Nat) (content_length : Nat) (left_over : List Nat) :
    Option (List Nat) :=
  if left_over.length ≤ content_length then
    let n := content_length - left_over.length
    some (left_over ++ (stream.take n ++ List.replicate (n - stream.length) 0))
  else none

/-- Follows the spec's words (§4.3), for comparison with `read_body`: read
exactly `length - leftover.len()` additional bytes; a short read (the stream
closing before that count is obtained) is a fatal error, modelled as `none`,
and underflow of the count is equally a failure rather than a body. -/
def read_body_spec (stream : List Nat) (content_length : Nat) (left_over : List Nat) :
    Option (List Nat) :=
  if left_over.length ≤ content_length ∧
      content_length - left_over.length ≤ stream.length then
    some (left_over ++ stream.take (content_length - left_over.length))
  else none

/-- One piece of the form-body split, `key_value.split_once("=").unwrap()`:
a piece without an equals sign panics (`none`). Folds the pairs into the
`HashMap` the source builds. -/
def parseFormAux : List Str → List (Str × Str) → Option (List (Str × Str))
  | [], m => some m
  | piece :: rest, m =>
    match splitOnceChar '=' piece with
    | some (k, v) => parseFormAux rest (insertHM m k v)
    | none => none

/-- The `application/x-www-form-urlencoded` decoding of `Request::new`:
split the decoded text on `&`, each piece on its first `=`; a piece without
`=` is an `unwrap` panic (`none`). -/
def parseForm (s : Str) : Option (List (Str × Str)) :=
  parseFormAux (splitOnChar '&' s) []

/-- The content-type dispatch of `Request::new` (the `match content_type`
expression), given the body bytes already read. Outer `none` is a panic;
`some none` is `body = None`. -/
def decodeBody (content_type : Str) (bytes : List Nat) : Option (Option Body) :=
  if content_type = str "application/json" then
    some (some (Body.JSON (from_utf8_lossy bytes)))
  else if content_type = str "application/x-www-form-urlencoded" then
    match parseForm (from_utf8_lossy bytes) with
    | some m => some (some (Body.FormData m))
    | none => none
  else if content_type = str "text/plain" then
    some (some (Body.Text (from_utf8_lossy bytes)))
  else if content_type ≠ [] then
    some (some (Body.Binary bytes))
  else
    some none

/-- The body-decoding phase of `Request::new`: a body is read and decoded
only when both `Content-Length` and `Content-Type` are present in the header
map; otherwise `body = None` (`some none`). `content_length.parse().unwrap()`
panics on an unparseable length. -/
def requestBody (headers : List (Str × Str)) (stream : List Nat)
    (left_over : List Nat) : Option (Option Body) :=
  match lookupHM headers (str "Content-Length"),
        lookupHM headers (str "Content-Type") with
  | some cl, some ct =>
    match parse_usize cl with
    | none => none
    | some n =>
      match read_body stream n left_over with
      | none => none
      | some bytes => decodeBody ct bytes
  | _, _ => some none

/-- The header-map accumulation of `Request::new`:
`hashmap.entry(name).and_modify(push ", value").or_insert(value)`. -/
def addHeader : List (Str × Str) → Str → Str → List (Str × Str)
  | [], n, v => [(n, v)]
  | (k, w) :: rest, n, v =>
    if k = n then (k, w ++ str ", " ++ v) :: rest
    else (k, w) :: addHeader rest n v

/-- One header line: `i.split_once(":")`, trimming name and value. -/
def parseHeaderLine (line : Str) : Option (Str × Str) :=
  match splitOnceChar ':' line with
  | some (n, v) => some (trimChars n, trimChars v)
  | none => none

/-- One iteration of the header loop of `Request::new`: a line that splits on
a colon is folded into the map, any other line is skipped. -/
def headerStep (m : List (Str × Str)) (line : Str) : List (Str × Str) :=
  match parseHeaderLine line with
  | some (n, v) => addHeader m n v
  | none => m

/-- The header loop of `Request::new` over the lines after the request line. -/
def headersFromLines (lines : List Str) : List (Str × Str) :=
  lines.foldl headerStep []

/-- The trimmed values of the lines carrying header name `n`, in encounter
order (used to state the header-folding claim). -/
def headerVals (lines : List Str) (n : Str) : List Str :=
  lines.filterMap
    (fun line =>
      match parseHeaderLine line with
      | some (a, v) => if a = n then some v else none
      | none => none)

/-- Comma-joining of values onto an optional existing value. -/
def joinVals (o : Option Str) (vs : List Str) : Option Str :=
  vs.foldl
    (fun acc v =>
      match acc with
      | none => some v
      | some a => some (a ++ str ", " ++ v))
    o

/-- How many entries of the map carry the given name. -/
def countName (m : List (Str × Str)) (n : Str) : Nat :=
  (m.filter (fun p => p.1 = n)).length

/-- The source's `Response` struct. `status` and `content_length` are `i32`;
no claim involves values outside the `i32` range, so they are `Int`. -/
structure Response where
  status : Int
  content_type : Option Str
  content_length : Option Int
  body : Str

/-- `Response::new()`. -/
def Response.new : Response := ⟨200, none, none, []⟩

/-- The `status` builder method (named with a prime because the field of the
struct already carries the source name). -/
def Response.status' (r : Response) (code : Int) : Response :=
  { r with status := code }

/-- UTF-8 byte length of a model string (Rust `String::len`). -/
def utf8Len (s : Str) : Nat := (s.map Char.utf8Size).sum

/-- The `html` builder method: content-type `text/html`, content-length the
byte length of the text, body the text. -/
def Response.html (r : Response) (h : Str) : Response :=
  { r with
      content_type := some (str "text/html")
      content_length := some (Int.ofNat (utf8Len h))
      body := h }

/-- The `json` builder method: content-type `application/json`, content-length
the byte length of the text, body the text. -/
def Response.json (r : Response) (j : Str) : Response :=
  { r with
      content_type := some (str "application/json")
      content_length := some (Int.ofNat (utf8Len j))
      body := j }

/-- `Response::send`, as the exact character sequence written to the stream
(the stray `println!("")` goes to stdout, not the stream, and is not
modelled). -/
def Response.send (r : Response) : Str :=
  match r.content_length, r.content_type with
  | some n, some ct =>
    str "HTTP/1.1 " ++ intToStr r.status ++ str "\r\nContent-Length: " ++
      intToStr n ++ str "\r\nContent-Type: " ++ ct ++ str "\r\n\r\n" ++ r.body
  | _, _ => str "HTTP/1.1 " ++ intToStr r.status ++ str "\r\n\r\n"

/-- The source's `RouteSegment` enum. -/
inductive RouteSegment where
  | Static (s : Str)
  | Dynamic (s : Str)
deriving DecidableEq

/-- The `Application` route tables: `static_methods` is the
`HashMap<(Method, String), handler>` (association-list model), and
`dynamic_methods` the `Vec<(Method, Vec<RouteSegment>, handler)>` in
registration order. Handlers are `Nat` labels. -/
structure Application where
  static_methods : List ((Method × Str) × Nat)
  dynamic_methods : List (Method × List RouteSegment × Nat)

/-- `Application::new()`. -/
def Application.new : Application := ⟨[], []⟩

/-- Dynamic-segment construction of `add_new_route`: a part starting with
`:` becomes `Dynamic` named by the rest (`item[1..]`), anything else
`Static`. -/
def segOfPart (part : Str) : RouteSegment :=
  if startsWithChar ':' part then RouteSegment.Dynamic (part.drop 1)
  else RouteSegment.Static part

/-- The segment list `add_new_route` builds:
`path.trim().split('/').filter(non-empty)` mapped through `segOfPart`. -/
def routeSegments (path : Str) : List RouteSegment :=
  (splitNonEmpty '/' (trimChars path)).map segOfPart

/-- `Application::add_new_route`: a path containing `:` is pushed onto the
dynamic list; any other path is inserted into the static map keyed by
(method, exact path). -/
def add_new_route (app : Application) (path : Str) (method : Method)
    (f : Nat) : Application :=
  if containsChar ':' path then
    { app with dynamic_methods := app.dynamic_methods ++ [(method, routeSegments path, f)] }
  else
    { app with static_methods := insertHM app.static_methods (method, path) f }

/-- The observable outcome of `execute_route`: which handler ran (with the
path-parameter map attached to the request for a dynamic hit), or that the
function returned without writing any response to the stream. -/
inductive RouteOutcome where
  | staticHit (handler : Nat)
  | dynamicHit (handler : Nat) (params : List (Str × Str))
  | noResponse
deriving DecidableEq

/-- The parameter map built by the inner loop of `execute_route`'s dynamic
scan: every `Dynamic` pattern position binds its name to the request segment;
`Static` positions insert nothing. (The mismatch test of a `Static` position
is a `continue` of this inner loop, hence a no-op; see `scanDynamic`.) -/
def collectParams (pat : List RouteSegment) (segs : List Str) : List (Str × Str) :=
  (segs.zip pat).foldl
    (fun m sp =>
      match sp.2 with
      | RouteSegment.Static _ => m
      | RouteSegment.Dynamic s => insertHM m s sp.1)
    []

/-- The dynamic-route scan of `execute_route`: a candidate is skipped
(`continue` of the outer loop) when its segment count or method differs;
otherwise the source unconditionally attaches the parameter map and invokes
the handler — the literal-mismatch `continue` inside the segment loop only
skips to the next segment position, so it never disqualifies the
candidate. -/
def scanDynamic : List (Method × List RouteSegment × Nat) → Method →
    List Str → RouteOutcome
  | [], _, _ => RouteOutcome.noResponse
  | (m, pat, h) :: rest, method, segs =>
    if segs.length = pat.length ∧ m = method then
      RouteOutcome.dynamicHit h (collectParams pat segs)
    else scanDynamic rest method segs

/-- The query-stripped routing path of `execute_route`: the part before the
first `?` when the route contains one, the route itself otherwise. -/
def filteredOf (route : Str) : Str :=
  if containsChar '?' route then ((splitOnceChar '?' route).getD (route, [])).1
  else route

/-- The query-string parsing `execute_route` performs when the route contains
`?` (attached to `request.search_params`; it does not influence which handler
runs). Pairs without `=` are skipped. -/
def searchParamsOf (query : Str) : List (Str × Str) :=
  (splitOnChar '&' query).foldl
    (fun m param =>
      match splitOnceChar '=' param with
      | some (n, v) => insertHM m n v
      | none => m)
    []

/-- `Application::execute_route`. The static lookup keys on the *original*
route string (`request.route`), while the dynamic scan uses the
query-stripped, `/`-split segments; a routing path that does not start with
`/` falls through with no response. `listen` passes `route = request.route`
and `method = request.method`, so both are single arguments here. -/
def execute_route (app : Application) (route : Str) (method : Method) :
    RouteOutcome :=
  if startsWithChar '/' (filteredOf route) then
    match lookupHM app.static_methods (method, route) with
    | some h => RouteOutcome.staticHit h
    | none => scanDynamic app.dynamic_methods method (splitNonEmpty '/' (filteredOf route))
  else RouteOutcome.noResponse

/-- Follows the spec's words (§4.5), for comparison with `scanDynamic`: a
candidate matches only if segment count and method agree AND every `Static`
pattern segment equals the corresponding request segment literally; the
first fully matching candidate's handler is returned. -/
def specSegmentsMatch : List RouteSegment → List Str → Bool
  | [], [] => true
  | RouteSegment.Static s :: ps, seg :: segs =>
    decide (s = seg) && specSegmentsMatch ps segs
  | RouteSegment.Dynamic _ :: ps, _ :: segs => specSegmentsMatch ps segs
  | _, _ => false

/-- Follows the spec's words (§4.5): scan the dynamic routes in registration
order and return the first candidate that fully matches. -/
def scanDynamicSpec : List (Method × List RouteSegment × Nat) → Method →
    List Str → Option Nat
  | [], _, _ => none
  | (m, pat, h) :: rest, method, segs =>
    if segs.length = pat.length ∧ m = method ∧ specSegmentsMatch pat segs then
      some h
    else scanDynamicSpec rest method segs

/-- The application used to exhibit the dynamic-scan divergence: the routes
`/user/:id/profile` (handler 1) and `/user/:id/settings` (handler 2),
both for GET, registered in that order. -/
def app1 : Application :=
  add_new_route
    (add_new_route Application.new (str "/user/:id/profile") Method.GET 1)
    (str "/user/:id/settings") Method.GET 2

/-- C1: the claim says a literal mismatch at a Static position disqualifies
the candidate and the scan moves on, so GET `/user/42/settings` should run
the `/user/:id/settings` handler (handler 2). The source's mismatch test is
a `continue` of the inner segment loop — a no-op — so `execute_route`
invokes handler 1, the `/user/:id/profile` candidate, purely because its
segment count and method match first; the spec-worded matcher
(`scanDynamicSpec`) selects handler 2 on the same input. -/
theorem dynamic_scan_ignores_static_mismatch :
    execute_route app1 (str "/user/42/settings") Method.GET =
      RouteOutcome.dynamicHit 1 [(str "id", str "42")] ∧
    scanDynamicSpec app1.dynamic_methods Method.GET
      (splitNonEmpty '/' (str "/user/42/settings")) = some 2 := by
  decide

/-- C2: the claim says a short read is a fatal error. With declared length 4,
no leftover, and a stream that supplies only one byte (0x61) before closing,
the source's `read_body` still returns a body — the byte read followed by the
zeroes the buffer was initialised with — because `let _ =` discards
`read_exact`'s error; the spec-worded reader (`read_body_spec`) fails on the
same input. -/
theorem read_body_short_read_returns_body :
    read_body [97] 4 [] = some [97, 0, 0, 0] ∧
    read_body_spec [97] 4 [] = none := by
  decide

/-- C3: the claim says an unmatched request still receives a 404-equivalent
response. The source's `execute_route` returns without writing anything to
the stream: for GET `/nothing` against an empty route table, for a routing
path without a leading slash even when an exactly matching static entry
exists, and for a dynamic table whose only candidate has a different segment
count. -/
theorem unmatched_route_writes_no_response :
    execute_route Application.new (str "/nothing") Method.GET =
      RouteOutcome.noResponse ∧
    execute_route (add_new_route Application.new (str "nothing") Method.GET 5)
      (str "nothing") Method.GET = RouteOutcome.noResponse ∧
    execute_route (add_new_route Application.new (str "/a/:x") Method.GET 6)
      (str "/a") Method.GET = RouteOutcome.noResponse := by
  decide

/-- C4: the claim says a form piece without `=` is surfaced as a client-error
response rather than a crash. The source's `split_once("=").unwrap()` panics
on the body `a=1&b` (modelled as `none`), crashing the handling thread with
no response; a well-formed body `a=1&b=2` decodes to the expected map. -/
theorem form_piece_without_eq_panics :
    parseForm (str "a=1&b") = none ∧
    parseForm (str "a=1&b=2") = some [(str "a", str "1"), (str "b", str "2")] := by
  decide

/-- C10: whenever the leftover bytes from header framing are longer than the
declared Content-Length, the unsigned subtraction
`content_length - buf.len()` in `read_body` underflows and the program
panics (modelled as `none`) instead of returning body bytes or a
request-level error. -/
theorem read_body_underflow_panics (stream : List Nat) (content_length : Nat)
    (left_over : List Nat) (h : content_length < left_over.length) :
    read_body stream content_length left_over = none := by
  unfold read_body
  rw [if_neg (by omega)]

/-- Witness for C10: with declared length 0 and a one-byte leftover,
`read_body` panics. -/
theorem read_body_underflow_panics_witness :
    0 < [(97 : Nat)].length ∧ read_body [] 0 [97] = none :=
  ⟨by decide, read_body_underflow_panics [] 0 [97] (by decide)⟩

/-- C5: a body is decoded only when both Content-Length and Content-Type are
present (otherwise `body = None`), and the content-type dispatch is a
case-sensitive exact match in source order: `application/json` gives
`Body::JSON` of the lossy decode, `application/x-www-form-urlencoded` gives
`Body::FormData` (or the form-decode panic), `text/plain` gives `Body::Text`,
any other non-empty content type gives `Body::Binary` of the raw bytes, and
the empty content type gives no body — the Binary catch-all never fires for
an empty content type. -/
theorem body_dispatch_characterization (headers : List (Str × Str))
    (stream left_over bytes : List Nat) (ct : Str) :
    (lookupHM headers (str "Content-Length") = none ∨
        lookupHM headers (str "Content-Type") = none →
      requestBody headers stream left_over = some none) ∧
    decodeBody (str "application/json") bytes =
      some (some (Body.JSON (from_utf8_lossy bytes))) ∧
    decodeBody (str "application/x-www-form-urlencoded") bytes =
      (match parseForm (from_utf8_lossy bytes) with
       | some m => some (some (Body.FormData m))
       | none => none) ∧
    decodeBody (str "text/plain") bytes =
      some (some (Body.Text (from_utf8_lossy bytes))) ∧
    (ct ≠ str "application/json" → ct ≠ str "application/x-www-form-urlencoded" →
      ct ≠ str "text/plain" → ct ≠ [] →
      decodeBody ct bytes = some (some (Body.Binary bytes))) ∧
    decodeBody [] bytes = some none := by
  refine ⟨?_, ?_, ?_, ?_, ?_, ?_⟩
  · intro h
    unfold requestBody
    rcases h with h | h
    · rw [h]
    · rw [h]
      cases lookupHM headers (str "Content-Length") <;> rfl
  · unfold decodeBody
    rw [if_pos rfl]
  · unfold decodeBody
    rw [if_neg (by decide), if_pos rfl]
  · unfold decodeBody
    rw [if_neg (by decide), if_neg (by decide), if_pos rfl]
  · intro h1 h2 h3 h4
    unfold decodeBody
    rw [if_neg h1, if_neg h2, if_neg h3, if_pos h4]
  · unfold decodeBody
    rw [if_neg (by decide), if_neg (by decide), if_neg (by decide),
      if_neg (fun h => h rfl)]

/-- Witness for C5: with no headers at all the body is `None`, and an
unmatched non-empty content type falls to the Binary case. -/
theorem body_dispatch_characterization_witness :
    requestBody [] [] [] = some none ∧
    decodeBody (str "image/png") [7] = some (some (Body.Binary [7])) :=
  ⟨(body_dispatch_characterization [] [] [] [7] (str "image/png")).1 (Or.inl rfl),
   (body_dispatch_characterization [] [] [] [7] (str "image/png")).2.2.2.2.1
     (by decide) (by decide) (by decide) (by decide)⟩

/-- The dynamic scan can only produce a dynamic hit or no response, never a
static hit. -/
theorem scanDynamic_not_static (dyns : List (Method × List RouteSegment × Nat))
    (m : Method) (segs : List Str) (h : Nat) :
    scanDynamic dyns m segs ≠ RouteOutcome.staticHit h := by
  induction dyns with
  | nil => simp [scanDynamic]
  | cons d rest ih =>
    obtain ⟨dm, pat, df⟩ := d
    simp only [scanDynamic]
    split
    · simp
    · exact ih

/-- C6: the static table is consulted before any dynamic route (a dynamic
hit is only possible when the static lookup failed), the lookup keys on the
request's original route string byte-for-byte — including any query
component — and a static hit is exactly a successful lookup of
(method, original route) behind the leading-slash guard on the
query-stripped path. -/
theorem static_lookup_precedes_dynamic (app : Application) (route : Str)
    (method : Method) :
    (∀ h, execute_route app route method = RouteOutcome.staticHit h ↔
      (startsWithChar '/' (filteredOf route) = true ∧
        lookupHM app.static_methods (method, route) = some h)) ∧
    (∀ h p, execute_route app route method = RouteOutcome.dynamicHit h p →
      lookupHM app.static_methods (method, route) = none) := by
  constructor
  · intro h
    unfold execute_route
    by_cases hs : startsWithChar '/' (filteredOf route) = true
    · rw [if_pos hs]
      cases hl : lookupHM app.static_methods (method, route) with
      | some h' =>
        constructor
        · intro he
          injection he with hh
          exact ⟨hs, by rw [hh]⟩
        · rintro ⟨-, hsome⟩
          injection hsome with hh
          rw [hh]
      | none =>
        constructor
        · intro he
          exact absurd he (scanDynamic_not_static _ _ _ _)
        · rintro ⟨-, hsome⟩
          cases hsome
    · rw [if_neg hs]
      constructor
      · intro he
        cases he
      · rintro ⟨hs', -⟩
        exact absurd hs' hs
  · intro h p he
    unfold execute_route at he
    by_cases hs : startsWithChar '/' (filteredOf route) = true
    · rw [if_pos hs] at he
      cases hl : lookupHM app.static_methods (method, route) with
      | some h' =>
        rw [hl] at he
        cases he
      | none => rfl
    · rw [if_neg hs] at he
      cases he

/-- Witness for C6: a static route registered as the full string `/a?x=1`
is hit by a request whose original route is that exact string. -/
theorem static_lookup_precedes_dynamic_witness :
    execute_route ⟨[((Method.GET, str "/a?x=1"), 7)], []⟩ (str "/a?x=1")
      Method.GET = RouteOutcome.staticHit 7 :=
  ((static_lookup_precedes_dynamic ⟨[((Method.GET, str "/a?x=1"), 7)], []⟩
      (str "/a?x=1") Method.GET).1 7).mpr ⟨by decide, by decide⟩

/-- C7: serialization emits exactly the header-and-body wire form when both
content-type and content-length are set, exactly the bare status line
otherwise, and `status(201).json("\x7b\x7d")` serializes to exactly the
claimed byte sequence. -/
theorem response_serialization (r : Response) (n : Int) (ct : Str) :
    (r.content_length = some n → r.content_type = some ct →
      r.send = str "HTTP/1.1 " ++ intToStr r.status ++
        str "\r\nContent-Length: " ++ intToStr n ++
        str "\r\nContent-Type: " ++ ct ++ str "\r\n\r\n" ++ r.body) ∧
    (r.content_length = none ∨ r.content_type = none →
      r.send = str "HTTP/1.1 " ++ intToStr r.status ++ str "\r\n\r\n") ∧
    ((Response.new.status' 201).json (str "{}")).send =
      str "HTTP/1.1 201\r\nContent-Length: 2\r\nContent-Type: application/json\r\n\r\n{}" := by
  refine ⟨?_, ?_, by decide⟩
  · intro h1 h2
    unfold Response.send
    rw [h1, h2]
  · intro h
    unfold Response.send
    rcases h with h | h
    · rw [h]
    · rw [h]
      cases r.content_length <;> rfl

/-- Witness for C7: a concrete response with both fields set serializes to
the full wire form. -/
theorem response_serialization_witness :
    (Response.mk 404 (some (str "text/html")) (some 5) (str "hello")).send =
      str "HTTP/1.1 404\r\nContent-Length: 5\r\nContent-Type: text/html\r\n\r\nhello" := by
  have h := (response_serialization
    (Response.mk 404 (some (str "text/html")) (some 5) (str "hello"))
    5 (str "text/html")).1 rfl rfl
  exact h.trans (by decide)

/-- Lookup after an insert: the inserted key now maps to the new value, any
other key is unaffected. -/
theorem lookupHM_insertHM {α β : Type} [DecidableEq α]
    (m : List (α × β)) (k : α) (v : β) (a : α) :
    lookupHM (insertHM m k v) a = if k = a then some v else lookupHM m a := by
  induction m with
  | nil => rfl
  | cons p rest ih =>
    obtain ⟨k0, w⟩ := p
    by_cases hk : k0 = k
    · subst hk
      by_cases ha : k0 = a <;> simp [insertHM, lookupHM, ha]
    · by_cases ha : k0 = a
      · subst ha
        have : ¬ k = k0 := fun hh => hk hh.symm
        simp [insertHM, lookupHM, hk, this]
      · simp [insertHM, lookupHM, hk, ha, ih]

/-- C9: registration stores a path containing a colon as a dynamic entry
appended in registration order — its segments the non-empty slash-separated
parts, colon-prefixed parts Dynamic named by the remainder, others Static
(see `routeSegments`) — and any other path as a static entry keyed by
(method, exact path), where re-registering the same key silently replaces
the earlier handler while the other table is untouched. -/
theorem route_registration (app : Application) (path : Str) (m : Method)
    (f : Nat) :
    (containsChar ':' path = true →
      (add_new_route app path m f).static_methods = app.static_methods ∧
      (add_new_route app path m f).dynamic_methods =
        app.dynamic_methods ++ [(m, routeSegments path, f)]) ∧
    (containsChar ':' path = false →
      (add_new_route app path m f).dynamic_methods = app.dynamic_methods ∧
      ∀ k, lookupHM (add_new_route app path m f).static_methods k =
        if (m, path) = k then some f else lookupHM app.static_methods k) := by
  constructor
  · intro hc
    unfold add_new_route
    rw [if_pos hc]
    exact ⟨rfl, rfl⟩
  · intro hc
    unfold add_new_route
    rw [if_neg (by simp [hc])]
    exact ⟨rfl, fun k => lookupHM_insertHM app.static_methods (m, path) f k⟩

/-- Witness for C9: `/a/:x` is stored as the expected dynamic entry, and
registering `/a` twice for GET leaves the second handler in the table. -/
theorem route_registration_witness :
    (add_new_route Application.new (str "/a/:x") Method.GET 1).dynamic_methods =
      [(Method.GET, [RouteSegment.Static (str "a"), RouteSegment.Dynamic (str "x")], 1)] ∧
    lookupHM (add_new_route (add_new_route Application.new (str "/a") Method.GET 1)
      (str "/a") Method.GET 2).static_methods (Method.GET, str "/a") = some 2 := by
  constructor
  · have h := ((route_registration Application.new (str "/a/:x") Method.GET 1).1
      (by decide)).2
    rw [h]
    decide
  · have h := ((route_registration
      (add_new_route Application.new (str "/a") Method.GET 1)
      (str "/a") Method.GET 2).2 (by decide)).2 (Method.GET, str "/a")
    rw [h]
    decide

/-- Lookup after `addHeader`: the target name's value gains `", value"` when
present and is created when absent; other names are unaffected. -/
theorem lookupHM_addHeader (m : List (Str × Str)) (a v n : Str) :
    lookupHM (addHeader m a v) n =
      if a = n then
        some (match lookupHM m n with
              | none => v
              | some w => w ++ str ", " ++ v)
      else lookupHM m n := by
  induction m with
  | nil =>
    by_cases han : a = n
    · subst han
      simp [addHeader, lookupHM]
    · simp [addHeader, lookupHM, han]
  | cons p rest ih =>
    obtain ⟨k, w⟩ := p
    by_cases hk : k = a
    · subst hk
      by_cases han : k = n
      · subst han
        simp [addHeader, lookupHM]
      · simp [addHeader, lookupHM, han]
    · by_cases hkn : k = n
      · subst hkn
        have han : ¬ a = k := fun hh => hk hh.symm
        simp [addHeader, lookupHM, hk, han]
      · simp [addHeader, lookupHM, hk, hkn, ih]

/-- The entry count of a name over a cons cell. -/
theorem countName_cons (k w n : Str) (rest : List (Str × Str)) :
    countName ((k, w) :: rest) n = (if k = n then 1 else 0) + countName rest n := by
  by_cases h : k = n
  · simp [countName, List.filter_cons, h, Nat.add_comm]
  · simp [countName, List.filter_cons, h]

/-- `addHeader` never creates a second entry for a name: it updates the
existing entry when there is one and adds the single first entry otherwise. -/
theorem countName_addHeader (m : List (Str × Str)) (a v n : Str) :
    countName (addHeader m a v) n =
      if a = n then (if countName m n = 0 then 1 else countName m n)
      else countName m n := by
  induction m with
  | nil =>
    by_cases han : a = n
    · subst han
      simp [addHeader, countName]
    · simp [addHeader, countName, han]
  | cons p rest ih =>
    obtain ⟨k, w⟩ := p
    by_cases hk : k = a
    · subst hk
      have ha : addHeader ((k, w) :: rest) k v = (k, w ++ str ", " ++ v) :: rest := by
        simp [addHeader]
      rw [ha, countName_cons, countName_cons]
      split_ifs <;> omega
    · have ha : addHeader ((k, w) :: rest) a v = (k, w) :: addHeader rest a v := by
        simp [addHeader, hk]
      rw [ha, countName_cons, countName_cons, ih]
      by_cases hn : k = n
      · have han : ¬ a = n := fun hh => hk (hn.trans hh.symm)
        simp [hn, han]
      · simp [hn]

/-- Folding header lines onto a map: the value looked up afterwards is the
starting value extended, in encounter order, by every value carried by a
line with that name. -/
theorem headersFold_lookup (lines : List Str) (m : List (Str × Str)) (n : Str) :
    lookupHM (lines.foldl headerStep m) n =
      joinVals (lookupHM m n) (headerVals lines n) := by
  induction lines generalizing m with
  | nil => rfl
  | cons line rest ih =>
    rw [List.foldl_cons, ih]
    cases hp : parseHeaderLine line with
    | none =>
      have hstep : headerStep m line = m := by simp [headerStep, hp]
      have hv : headerVals (line :: rest) n = headerVals rest n := by
        simp [headerVals, hp]
      rw [hstep, hv]
    | some p =>
      obtain ⟨a, vv⟩ := p
      have hstep : headerStep m line = addHeader m a vv := by simp [headerStep, hp]
      rw [hstep, lookupHM_addHeader]
      by_cases han : a = n
      · subst han
        rw [if_pos rfl]
        have hv : headerVals (line :: rest) a = vv :: headerVals rest a := by
          simp [headerVals, hp]
        rw [hv]
        unfold joinVals
        rw [List.foldl_cons]
        cases lookupHM m a <;> rfl
      · rw [if_neg han]
        have hv : headerVals (line :: rest) n = headerVals rest n := by
          simp [headerVals, hp, han]
        rw [hv]

/-- Folding header lines onto a map never pushes a name's entry count above
one (beyond what the start map already had). -/
theorem headersFold_count (lines : List Str) (m : List (Str × Str)) (n : Str) :
    countName (lines.foldl headerStep m) n ≤ max (countName m n) 1 := by
  induction lines generalizing m with
  | nil => exact le_max_left _ _
  | cons line rest ih =>
    rw [List.foldl_cons]
    refine le_trans (ih (headerStep m line)) ?_
    have hstep : countName (headerStep m line) n ≤ max (countName m n) 1 := by
      cases hp : parseHeaderLine line with
      | none =>
        have h0 : headerStep m line = m := by simp [headerStep, hp]
        rw [h0]
        exact le_max_left _ _
      | some p =>
        obtain ⟨a, vv⟩ := p
        have h0 : headerStep m line = addHeader m a vv := by simp [headerStep, hp]
        rw [h0, countName_addHeader]
        by_cases han : a = n
        · rw [if_pos han]
          by_cases hz : countName m n = 0
          · rw [if_pos hz]
            exact le_max_right _ _
          · rw [if_neg hz]
            exact le_max_left _ _
        · rw [if_neg han]
          exact le_max_left _ _
    exact max_le hstep (le_max_right _ _)

/-- C8: in the header map built from a request's header lines, every name
has at most one entry, and its value is the first value carried by a line
with that name followed by `", "` and each subsequent value in encounter
order (later occurrences append rather than overwrite). -/
theorem header_folding (lines : List Str) (n : Str) :
    lookupHM (headersFromLines lines) n = joinVals none (headerVals lines n) ∧
    countName (headersFromLines lines) n ≤ 1 := by
  constructor
  · have h := headersFold_lookup lines [] n
    unfold headersFromLines
    exact h
  · have h := headersFold_count lines [] n
    unfold headersFromLines
    simpa [countName] using h

end ExpressRs
